import Mathlib

/-!
Shallow embedding of `src/grocery_chain_analysis.py`, a pandas pipeline that
loads a grocery-transaction CSV, cleans it, and writes summary metrics plus a
fixed set of chart/table exports.

Modelling conventions:
* A dataframe cell is a `Cell`: a numeric value (`ℚ`, standing for the float
  values pandas produces), a string, or the missing marker `Cell.na` (NaN/NaT).
  `pd.read_csv` is modelled as already having produced such a cell table; text
  columns arrive as `Cell.str`, numeric columns as `Cell.num`, empty entries as
  `Cell.na`.
* Column presence ("c" in df.columns) is a record of Booleans; a `Row` record
  always carries all fields, but a field is meaningful only when its presence
  flag is set, exactly as the script only touches columns that exist.
* String utilities (splitting, comparison, formatting) are implemented over
  `List Char` by structural recursion so that every definition evaluates inside
  the kernel; they agree with the character-wise lexicographic semantics of the
  library's string operations on the ASCII data this pipeline handles.
* Aggregations follow pandas null-aware semantics: `sum` skips missing values
  (empty/all-missing sums are 0), `mean`/`median` are missing on an empty set
  of present values, group-by drops missing keys and sorts the remaining keys
  ascending, and `sort_values(ascending=False)` is the reverse of a stable
  ascending sort (pandas `nargsort` computes a stable ascending argsort and
  reverses the indexer when `ascending=False`).
-/

/-- A dataframe cell: numeric, string, or missing (NaN/NaT). -/
inductive Cell where
  | num (q : ℚ)
  | str (s : String)
  | na
  deriving DecidableEq, Repr

/-- A calendar date (year, month, day), the payload of a parsed timestamp. -/
structure Date where
  y : ℕ
  m : ℕ
  d : ℕ
  deriving DecidableEq, Repr

/-- Value of an ASCII digit character, `none` on anything else. -/
def digitVal (c : Char) : Option ℕ :=
  if c.isDigit then some (c.toNat - 48) else none

/-- Fold a digit list into a natural number; `none` if any char is not a digit. -/
def parseNatChars (cs : List Char) : Option ℕ :=
  cs.foldl (fun acc c => acc.bind fun a => (digitVal c).map fun d => 10 * a + d) (some 0)

/-- Parse a nonempty all-digit string as a natural number. -/
def parseNatStr (s : String) : Option ℕ :=
  if s.data.isEmpty then none else parseNatChars s.data

/-- Split a character list on a separator character (structural recursion, so it
evaluates in the kernel; same semantics as splitting a string on a one-char
separator). -/
def splitChars (sep : Char) : List Char → List (List Char)
  | [] => [[]]
  | c :: rest =>
    let r := splitChars sep rest
    if c = sep then [] :: r
    else
      match r with
      | [] => [[c]]
      | h :: t => (c :: h) :: t

/-- Split a string on a separator character, as strings. -/
def splitStr (sep : Char) (s : String) : List String :=
  (splitChars sep s.data).map String.mk

/-- Lexicographic `≤` on character lists by code point, the order `pandas`
group-by uses for its sorted string keys. -/
def lexLe : List Char → List Char → Bool
  | [], _ => true
  | _ :: _, [] => false
  | a :: as, b :: bs =>
    if a.toNat < b.toNat then true
    else if a.toNat = b.toNat then lexLe as bs
    else false

/-- Lexicographic `≤` on strings. -/
def strLe (a b : String) : Bool :=
  lexLe a.data b.data

/-- Leap-year rule of the proleptic Gregorian calendar. -/
def isLeap (y : ℕ) : Bool :=
  (y % 4 == 0 && y % 100 != 0) || y % 400 == 0

/-- Number of days in a month. -/
def daysInMonth (y m : ℕ) : ℕ :=
  if m == 2 then (if isLeap y then 29 else 28)
  else if m == 4 || m == 6 || m == 9 || m == 11 then 30
  else 31

/-- Parse a `YYYY-MM-DD` string into a date; anything else is unparsable.
`pd.to_datetime` accepts further formats, but every format it rejects coerces
to missing under `errors="coerce"`, which is all the claims depend on. -/
def parseDateString (s : String) : Option Date :=
  match (splitChars '-' s.data).map String.mk with
  | [ys, ms, ds] =>
    match parseNatStr ys, parseNatStr ms, parseNatStr ds with
    | some y, some m, some d =>
      if 1 ≤ m && m ≤ 12 && 1 ≤ d && d ≤ daysInMonth y m then some ⟨y, m, d⟩
      else none
    | _, _, _ => none
  | _ => none

/-- Model of `pd.to_datetime(cell, errors="coerce")` on one cell: only string
cells can parse; missing stays missing. -/
def parseDate : Cell → Option Date
  | Cell.str s => parseDateString s
  | _ => none

/-- Days since 0000-03-01 in the proleptic Gregorian calendar (standard
days-from-civil computation, valid for the post-1582 dates this data holds). -/
def daysFromCivil (dt : Date) : ℕ :=
  let y := if dt.m ≤ 2 then dt.y - 1 else dt.y
  let era := y / 400
  let yoe := y % 400
  let mp := (dt.m + 9) % 12
  let doy := (153 * mp + 2) / 5 + dt.d - 1
  let doe := yoe * 365 + yoe / 4 - yoe / 100 + doy
  era * 146097 + doe

/-- The canonical weekday list used by `plot_weekday_pattern` (line 93). -/
def weekdays : List String :=
  ["Monday", "Tuesday", "Wednesday", "Thursday", "Friday", "Saturday", "Sunday"]

/-- Model of `Series.dt.day_name()` on a parsed date: the English weekday name.
The anchor is 2000-03-01, a Wednesday (index 2 with Monday = 0). -/
def dayName (dt : Date) : String :=
  weekdays.getD ((daysFromCivil dt + 2) % 7) ""

/-- Decimal digits of a natural number as characters (fuel-based structural
recursion so it evaluates in the kernel). -/
def natDigits : ℕ → ℕ → List Char
  | 0, _ => []
  | fuel + 1, n =>
    if n < 10 then [Char.ofNat (48 + n)]
    else natDigits fuel (n / 10) ++ [Char.ofNat (48 + n % 10)]

/-- Render a natural number in decimal. -/
def natToStr (n : ℕ) : String :=
  String.mk (natDigits (n + 1) n)

/-- Left-pad a decimal rendering with zeros to the given width. -/
def natToStrPad (width n : ℕ) : String :=
  let ds := natDigits (n + 1) n
  String.mk (List.replicate (width - ds.length) '0' ++ ds)

/-- Model of `Period(freq="M")` rendered by `astype(str)`: `YYYY-MM`. -/
def fmtYearMonth (dt : Date) : String :=
  natToStrPad 4 dt.y ++ "-" ++ natToStrPad 2 dt.m

/-- Parse an unsigned decimal numeral (`"12"` or `"12.5"`) as a rational. -/
def parseUnsignedNumeric (s : String) : Option ℚ :=
  match (splitChars '.' s.data).map String.mk with
  | [ip] => (parseNatStr ip).map fun n => (n : ℚ)
  | [ip, fp] =>
    match parseNatStr ip, parseNatStr fp with
    | some n, some f => some ((n : ℚ) + (f : ℚ) / ((10 : ℚ) ^ fp.length))
    | _, _ => none
  | _ => none

/-- Model of `pd.to_numeric` on a string: optional sign, then a decimal
numeral; anything else fails (and will coerce to missing). Exotic accepted
spellings (exponents, thousands separators) are outside the model, which only
narrows the set of parsable strings — unparsable still maps to missing. -/
def parseNumeric (s : String) : Option ℚ :=
  let t := String.mk ((s.data.dropWhile (· = ' ')).reverse.dropWhile (· = ' ') |>.reverse)
  match t.data with
  | '-' :: rest => (parseUnsignedNumeric (String.mk rest)).map Neg.neg
  | '+' :: rest => parseUnsignedNumeric (String.mk rest)
  | _ => parseUnsignedNumeric t

/-- Model of `pd.to_numeric(col, errors="coerce")` on one cell (line 26):
numbers pass through, strings parse or become missing, missing stays missing. -/
def toNumericCoerce : Cell → Cell
  | Cell.num q => Cell.num q
  | Cell.na => Cell.na
  | Cell.str s =>
    match parseNumeric s with
    | some q => Cell.num q
    | none => Cell.na

/-- One transaction row. Every field is a `Cell`; a field is meaningful only
when the table's corresponding presence flag is set. -/
structure Row where
  transaction_date : Cell := Cell.na
  store_name : Cell := Cell.na
  product_name : Cell := Cell.na
  aisle : Cell := Cell.na
  quantity : Cell := Cell.na
  unit_price : Cell := Cell.na
  total_amount : Cell := Cell.na
  discount_amount : Cell := Cell.na
  final_amount : Cell := Cell.na
  loyalty_points : Cell := Cell.na
  year_month : Cell := Cell.na
  weekday : Cell := Cell.na
  deriving DecidableEq, Repr

/-- Which columns the dataframe actually has (`"c" in df.columns`). -/
structure ColPresence where
  hasDate : Bool := false
  hasStore : Bool := false
  hasProduct : Bool := false
  hasAisle : Bool := false
  hasQuantity : Bool := false
  hasUnitPrice : Bool := false
  hasTotalAmount : Bool := false
  hasDiscount : Bool := false
  hasFinal : Bool := false
  hasLoyalty : Bool := false
  hasYearMonth : Bool := false
  hasWeekday : Bool := false
  deriving DecidableEq, Repr

/-- A dataframe: its column-presence record and its rows. -/
structure Table where
  cols : ColPresence
  rows : List Row
  deriving DecidableEq, Repr

/-- Date-derivation step of `load_and_clean` (lines 16–20): when the
`transaction_date` column exists, parse it (`errors="coerce"`); a parsed row
gets `year_month` (the period rendered via `astype(str)`) and `weekday`
(`dt.day_name()`); an unparsable date becomes NaT, whose period *stringifies to
the literal "NaT"* while `day_name()` yields missing. The derived `date`
column of line 18 is read by nothing downstream and is not modelled. -/
def cleanDates (p : ColPresence) (r : Row) : Row :=
  if p.hasDate then
    match parseDate r.transaction_date with
    | some dt =>
      { r with year_month := Cell.str (fmtYearMonth dt),
               weekday := Cell.str (dayName dt) }
    | none =>
      { r with transaction_date := Cell.na,
               year_month := Cell.str "NaT",
               weekday := Cell.na }
  else r

/-- Numeric-coercion step of `load_and_clean` (lines 22–26): each expected
numeric column that is present is passed through `to_numeric(errors="coerce")`. -/
def cleanNumeric (p : ColPresence) (r : Row) : Row :=
  { r with
    quantity := if p.hasQuantity then toNumericCoerce r.quantity else r.quantity,
    unit_price := if p.hasUnitPrice then toNumericCoerce r.unit_price else r.unit_price,
    total_amount := if p.hasTotalAmount then toNumericCoerce r.total_amount else r.total_amount,
    discount_amount := if p.hasDiscount then toNumericCoerce r.discount_amount else r.discount_amount,
    final_amount := if p.hasFinal then toNumericCoerce r.final_amount else r.final_amount,
    loyalty_points := if p.hasLoyalty then toNumericCoerce r.loyalty_points else r.loyalty_points }

/-- Model of `load_and_clean` (lines 13–27), from the in-memory table that
`read_csv` produced: derive date columns, then coerce the numeric columns.
It is a total function — value-level parse failures degrade to missing cells,
they never raise. -/
def load_and_clean (t : Table) : Table :=
  { cols := { t.cols with
      hasYearMonth := t.cols.hasDate || t.cols.hasYearMonth,
      hasWeekday := t.cols.hasDate || t.cols.hasWeekday },
    rows := t.rows.map (fun r => cleanNumeric t.cols (cleanDates t.cols r)) }

/-- The numeric content of a cell, `none` when missing or non-numeric. -/
def cellNum : Cell → Option ℚ
  | Cell.num q => some q
  | _ => none

/-- The string content of a cell, `none` when missing or non-string. -/
def cellStr : Cell → Option String
  | Cell.str s => some s
  | _ => none

/-- The present (non-missing) numeric values of a column. -/
def presentValues (cells : List Cell) : List ℚ :=
  cells.filterMap cellNum

/-- Pandas `Series.sum()` with its default `skipna=True, min_count=0`: the sum
of the present values, `0` when none are present. -/
def pandasSum (cells : List Cell) : ℚ :=
  (cells.filterMap cellNum).sum

/-- Pandas `Series.mean()`: sum of present values over their count, missing
(NaN) when no value is present. -/
def pandasMean (cells : List Cell) : Option ℚ :=
  let p := cells.filterMap cellNum
  if p.length = 0 then none else some (p.sum / p.length)

/-- Sort a list of rationals ascending. -/
def sortedAscQ (l : List ℚ) : List ℚ :=
  List.insertionSort (fun a b => a ≤ b) l

/-- Pandas `Series.median()`: drop missing values, sort, and take the middle
element (odd count) or the average of the two middle elements (even count);
missing (NaN) when no value is present. -/
def pandasMedian (cells : List Cell) : Option ℚ :=
  let p := sortedAscQ (cells.filterMap cellNum)
  if p.length = 0 then none
  else if p.length % 2 = 1 then some (p.getD (p.length / 2) 0)
  else some ((p.getD (p.length / 2 - 1) 0 + p.getD (p.length / 2) 0) / 2)

/-- The standard midpoint statistic over a plain list of values, written from
the spec's words ("the standard midpoint statistic over the present values
only") to compare against the summarizer's median. -/
def specMidpointMedian (l : List ℚ) : Option ℚ :=
  let s := List.insertionSort (fun a b => a ≤ b) l
  if s.length = 0 then none
  else if s.length % 2 = 1 then some (s.getD (s.length / 2) 0)
  else some ((s.getD (s.length / 2 - 1) 0 + s.getD (s.length / 2) 0) / 2)

/-- Model of `save_summary` (lines 29–39): the five metric rows of
`summary_metrics.csv`, each a name paired with a value that may be missing. -/
def save_summary (t : Table) : List (String × Option ℚ) :=
  [("total_sales", some (pandasSum (t.rows.map Row.final_amount))),
   ("total_transactions", some ((t.rows.length : ℚ))),
   ("total_quantity", some (pandasSum (t.rows.map Row.quantity))),
   ("avg_transaction_value", pandasMean (t.rows.map Row.final_amount)),
   ("median_transaction_value", pandasMedian (t.rows.map Row.final_amount))]

/-- The sorted distinct group keys of `df.groupby(col)` (default `sort=True`,
`dropna=True`): the distinct string values of the column, missing keys
dropped, sorted ascending. -/
def groupKeys (key : Row → Cell) (rows : List Row) : List String :=
  List.insertionSort (fun a b => strLe a b = true)
    ((rows.filterMap (fun r => cellStr (key r))).dedup)

/-- The `final_amount` group sum for one group key, with pandas null-aware
`sum` semantics. -/
def groupSumBy (key : Row → Cell) (s : String) (rows : List Row) : ℚ :=
  pandasSum ((rows.filter (fun r => key r == Cell.str s)).map Row.final_amount)

/-- Model of `df.groupby(col)["final_amount"].sum()`: one `(key, sum)` pair per
distinct present key, in ascending key order. -/
def groupbySum (key : Row → Cell) (rows : List Row) : List (String × ℚ) :=
  (groupKeys key rows).map (fun s => (s, groupSumBy key s rows))

/-- Ascending comparison used to model `sort_values`: by value, with ties
broken by the key. On a group-by result (whose keys are strictly ascending)
sorting by this total order coincides with a stable ascending sort by value. -/
def pairLE (a b : String × ℚ) : Prop :=
  a.2 < b.2 ∨ (a.2 = b.2 ∧ strLe a.1 b.1 = true)

instance : DecidableRel pairLE :=
  fun a b => inferInstanceAs (Decidable (a.2 < b.2 ∨ (a.2 = b.2 ∧ strLe a.1 b.1 = true)))

/-- Model of `Series.sort_values(ascending=False)` on a group-by result:
pandas `nargsort` computes a stable *ascending* argsort of the values and then
reverses the whole indexer when `ascending=False`, so the result is the
reverse of the stable ascending sort — groups with equal sums come out in
reverse of their original order. -/
def sort_values_descending (l : List (String × ℚ)) : List (String × ℚ) :=
  (List.insertionSort pairLE l).reverse

/-- Model of `plot_sales_by_store` (lines 55–66): the full per-store ranking
written to `sales_by_store.csv` (the bar chart additionally takes `head(12)`). -/
def plot_sales_by_store (t : Table) : List (String × ℚ) :=
  sort_values_descending (groupbySum Row.store_name t.rows)

/-- Model of `plot_top_products` (lines 80–90): the full per-product ranking
written to `sales_by_product.csv` (the chart additionally takes `head(15)`). -/
def plot_top_products (t : Table) : List (String × ℚ) :=
  sort_values_descending (groupbySum Row.product_name t.rows)

/-- Model of `plot_category_breakdown` (lines 68–78): `none` (no output files)
when the `aisle` column is absent; otherwise the pie-chart data (`head(12)` of
the descending ranking) and the full per-aisle table written to
`sales_by_aisle.csv`. -/
def plot_category_breakdown (t : Table) : Option (List (String × ℚ) × List (String × ℚ)) :=
  if t.cols.hasAisle then
    let by_aisle := sort_values_descending (groupbySum Row.aisle t.rows)
    some (by_aisle.take 12, by_aisle)
  else none

/-- Model of `pd.to_datetime` on a `YYYY-MM`-shaped month label (line 43):
the first day of that month; the literal `"NaT"` (produced by stringifying an
unparsed date's period) yields missing. Labels that pandas cannot parse at all
make line 43 raise instead; the claims only evaluate this on parsable labels. -/
def toDatetimeMonthStart (s : String) : Option Date :=
  match (splitChars '-' s.data).map String.mk with
  | [ys, ms] =>
    match parseNatStr ys, parseNatStr ms with
    | some y, some m => if 1 ≤ m && m ≤ 12 then some ⟨y, m, 1⟩ else none
    | _, _ => none
  | _ => none

/-- Model of `plot_timeseries` (lines 41–53): group by the year-month label
(ascending label order from `groupby`), sum `final_amount`, then replace the
label column by its parsed month-start timestamp (line 43) — without any
re-sorting — and export the result as `monthly_sales.csv`. -/
def plot_timeseries (t : Table) : List (Option Date × ℚ) :=
  (groupbySum Row.year_month t.rows).map (fun p => (toDatetimeMonthStart p.1, p.2))

/-- Numeric key of a date, ordered as the calendar is. -/
def dateKey (dt : Date) : ℕ :=
  dt.y * 10000 + dt.m * 100 + dt.d

/-- Comparison of optional dates: both present compare by the calendar,
anything involving a missing date is accepted. -/
def optDateLE (a b : Option Date) : Bool :=
  match a, b with
  | some da, some db => dateKey da ≤ dateKey db
  | _, _ => true

/-- A monthly export is chronological when its parsed dates are ascending. -/
def Chronological (l : List (Option Date × ℚ)) : Prop :=
  l.Pairwise (fun a b => optDateLE a.1 b.1 = true)

/-- Model of `plot_weekday_pattern` (lines 92–103): group by weekday name, sum
`final_amount`, and `reindex` onto the canonical Monday→Sunday list — a lookup
of each canonical name in the grouped result, missing (`none`) when the name
has no group. -/
def plot_weekday_pattern (t : Table) : List (String × Option ℚ) :=
  let g := groupbySum Row.weekday t.rows
  weekdays.map (fun w => (w, g.lookup w))

/-- One step of a linear congruential generator, standing in for NumPy's
seeded generator state. -/
def lcgNext (s : ℕ) : ℕ :=
  (1103515245 * s + 12345) % 2147483648

/-- Seed-driven selection without replacement: repeatedly draw the
`state mod remaining`-th row, advancing the generator state. The fuel is the
list length, so the result is the full seed-determined permutation. This
models `RandomState(seed)`-based sampling: not bit-identical to the Mersenne
Twister draw, but — like it — a pure function of the seed and the row order. -/
def drawPermGo : ℕ → ℕ → List Row → List Row
  | _, _, [] => []
  | _, 0, _ => []
  | s, n + 1, x :: xs =>
    let ys := x :: xs
    let i := s % ys.length
    ys.getD i x :: drawPermGo (lcgNext s) n (ys.eraseIdx i)

/-- Model of `df.sample(n=min(800, len(df)), random_state=seed)` (line 106):
the first `min 800 (length rows)` entries of the seed-determined permutation. -/
def pandas_sample (rows : List Row) (seed : ℕ) : List Row :=
  (drawPermGo seed rows.length rows).take (min 800 rows.length)

/-- Model of `plot_discount_vs_sales` (lines 105–114): the sampled rows whose
`discount_amount` and `final_amount` the scatter plot draws (`random_state=1`);
nothing else is exported. -/
def plot_discount_vs_sales (t : Table) : List Row :=
  pandas_sample t.rows 1

/-- The distinct year-month labels of the table, ascending (the pivot's column
axis). -/
def monthsOf (t : Table) : List String :=
  groupKeys Row.year_month t.rows

/-- The distinct store names of the table, ascending (the pivot's row axis). -/
def storesOf (t : Table) : List String :=
  groupKeys Row.store_name t.rows

/-- One cell of `pivot_table(index="store_name", columns="year_month",
values="final_amount", aggfunc="sum", fill_value=0)`: the null-aware sum of
`final_amount` over the rows of that store and month — `0` (the fill value)
when no row matches. -/
def pivotCell (t : Table) (s m : String) : ℚ :=
  pandasSum ((t.rows.filter
    (fun r => r.store_name == Cell.str s && r.year_month == Cell.str m)).map Row.final_amount)

/-- Row total of the pivot (`pivot.sum(axis=1)`, line 119). -/
def storeTotal (t : Table) (s : String) : ℚ :=
  ((monthsOf t).map (pivotCell t s)).sum

/-- The top-12 stores by pivot row total (lines 119–120): descending
`sort_values` then `head(12)`. -/
def topStores (t : Table) : List String :=
  ((sort_values_descending ((storesOf t).map (fun s => (s, storeTotal t s)))).take 12).map Prod.fst

/-- Model of `plot_store_month_heatmap` (lines 116–131): the top-12 pivot
exported to `store_month_pivot_top12.csv` — one row per top store, holding one
filled numeric cell per month column. -/
def plot_store_month_heatmap (t : Table) : List (String × List ℚ) :=
  (topStores t).map (fun s => (s, (monthsOf t).map (pivotCell t s)))

/-- A cell that is numeric or missing — never text. -/
def numOrNa : Cell → Bool
  | Cell.str _ => false
  | _ => true

theorem numOrNa_toNumericCoerce (c : Cell) : numOrNa (toNumericCoerce c) = true := by
  cases c with
  | num q => rfl
  | na => rfl
  | str s =>
    simp only [toNumericCoerce]
    cases parseNumeric s <;> rfl

/-- C2: the loader/cleaner never raises on malformed numeric text: it is a
total function, and in its output every present expected numeric column holds
only numeric-or-missing cells (unparsable entries became missing). -/
theorem cleaned_numeric_columns_numeric_or_missing (t : Table) (r : Row)
    (hr : r ∈ (load_and_clean t).rows) :
    (t.cols.hasQuantity = true → numOrNa r.quantity = true) ∧
    (t.cols.hasUnitPrice = true → numOrNa r.unit_price = true) ∧
    (t.cols.hasTotalAmount = true → numOrNa r.total_amount = true) ∧
    (t.cols.hasDiscount = true → numOrNa r.discount_amount = true) ∧
    (t.cols.hasFinal = true → numOrNa r.final_amount = true) ∧
    (t.cols.hasLoyalty = true → numOrNa r.loyalty_points = true) := by
  obtain ⟨r0, _, rfl⟩ := List.mem_map.1 hr
  refine ⟨?_, ?_, ?_, ?_, ?_, ?_⟩ <;> intro h <;>
    simp [cleanNumeric, h, numOrNa_toNumericCoerce]

def tableC2 : Table :=
  { cols := { hasQuantity := true, hasUnitPrice := true, hasTotalAmount := true,
              hasDiscount := true, hasFinal := true, hasLoyalty := true },
    rows := [{ quantity := Cell.str "oops" }] }

theorem cleaned_numeric_columns_numeric_or_missing_witness :
    ({} : Row) ∈ (load_and_clean tableC2).rows ∧ numOrNa (({} : Row)).quantity = true :=
  ⟨by decide, (cleaned_numeric_columns_numeric_or_missing tableC2 {} (by decide)).1 rfl⟩

/-- C6: the category-breakdown generator emits nothing (and does not raise)
when the `aisle` column is absent, and emits both the pie data and the full
per-aisle table when it is present. -/
theorem category_breakdown_presence (t : Table) :
    (t.cols.hasAisle = false → plot_category_breakdown t = none) ∧
    (t.cols.hasAisle = true →
      plot_category_breakdown t =
        some ((sort_values_descending (groupbySum Row.aisle t.rows)).take 12,
              sort_values_descending (groupbySum Row.aisle t.rows))) := by
  constructor <;> intro h <;> simp [plot_category_breakdown, h]

theorem category_breakdown_presence_witness :
    plot_category_breakdown { cols := {}, rows := [] } = none :=
  (category_breakdown_presence { cols := {}, rows := [] }).1 rfl

theorem drawPermGo_length :
    ∀ (n : ℕ) (s : ℕ) (l : List Row), l.length = n → (drawPermGo s n l).length = n := by
  intro n
  induction n with
  | zero =>
    intro s l hl
    cases l with
    | nil => rfl
    | cons x xs => simp at hl
  | succ n ih =>
    intro s l hl
    cases l with
    | nil => simp at hl
    | cons x xs =>
      have hi : s % (xs.length + 1) < (x :: xs).length := by
        simpa using Nat.mod_lt s (Nat.succ_pos xs.length)
      have herase := List.length_eraseIdx_add_one hi
      have hxs : xs.length = n := by simpa using hl
      have hlen : ((x :: xs).eraseIdx (s % (xs.length + 1))).length = n := by
        simp only [List.length_cons] at herase
        omega
      simp only [drawPermGo, List.length_cons]
      rw [ih (lcgNext s) _ hlen]

/-- C9: the discount-vs-revenue scatter samples exactly `min 800 n` rows —
never more than 800 — and the selection is a pure function of the fixed seed
and the row order: two tables with the same rows sample identically. -/
theorem discount_sample_size_deterministic (t u : Table) (h : t.rows = u.rows) :
    (plot_discount_vs_sales t).length = min 800 t.rows.length ∧
    (plot_discount_vs_sales t).length ≤ 800 ∧
    plot_discount_vs_sales t = plot_discount_vs_sales u := by
  have hl : (drawPermGo 1 t.rows.length t.rows).length = t.rows.length :=
    drawPermGo_length _ _ _ rfl
  refine ⟨?_, ?_, ?_⟩
  · simp [plot_discount_vs_sales, pandas_sample, List.length_take, hl]
  · simp [plot_discount_vs_sales, pandas_sample, List.length_take, hl]
  · simp [plot_discount_vs_sales, pandas_sample, h]

def tableC9 : Table :=
  { cols := { hasDiscount := true, hasFinal := true },
    rows := [{ discount_amount := Cell.num 1, final_amount := Cell.num 3 },
             { discount_amount := Cell.num 2, final_amount := Cell.num 4 }] }

theorem discount_sample_size_deterministic_witness :
    (plot_discount_vs_sales tableC9).length = min 800 tableC9.rows.length ∧
    plot_discount_vs_sales tableC9 = plot_discount_vs_sales tableC9 :=
  ⟨(discount_sample_size_deterministic tableC9 tableC9 rfl).1,
   (discount_sample_size_deterministic tableC9 tableC9 rfl).2.2⟩

theorem filterMap_cellNum_nil_of_all_na (cells : List Cell)
    (h : ∀ c ∈ cells, c = Cell.na) : cells.filterMap cellNum = [] := by
  rw [List.filterMap_eq_nil_iff]
  intro c hc
  rw [h c hc]
  rfl

/-- C8: with `final_amount` entirely missing, the summarizer still writes all
five metric rows without crashing, and the mean and median rows carry the
missing marker. -/
theorem summary_all_missing_final (t : Table)
    (h : ∀ r ∈ t.rows, r.final_amount = Cell.na) :
    (save_summary t).length = 5 ∧
    (save_summary t).lookup "avg_transaction_value" = some none ∧
    (save_summary t).lookup "median_transaction_value" = some none := by
  have hp : (t.rows.map Row.final_amount).filterMap cellNum = [] := by
    refine filterMap_cellNum_nil_of_all_na _ ?_
    intro c hc
    obtain ⟨r, hr, rfl⟩ := List.mem_map.1 hc
    exact h r hr
  refine ⟨rfl, ?_, ?_⟩
  · simp [save_summary, pandasMean, hp, List.lookup]
  · simp [save_summary, pandasMedian, sortedAscQ, hp, List.lookup]

def tableC8 : Table :=
  { cols := { hasFinal := true, hasQuantity := true },
    rows := [{ final_amount := Cell.na, quantity := Cell.num 2 }] }

theorem summary_all_missing_final_witness :
    (save_summary tableC8).length = 5 ∧
    (save_summary tableC8).lookup "avg_transaction_value" = some none ∧
    (save_summary tableC8).lookup "median_transaction_value" = some none :=
  summary_all_missing_final tableC8 (by decide)

/-- C1: the five summary metrics: total = sum of present `final_amount`
values; count = all rows (missing included); quantity = sum of present
`quantity` values; mean = total over the count of present values (stated on a
nonempty present set, where pandas defines it); median = the standard midpoint
statistic over the present values only. -/
theorem summary_metrics_spec (t : Table)
    (h : presentValues (t.rows.map Row.final_amount) ≠ []) :
    (save_summary t).lookup "total_sales"
      = some (some ((presentValues (t.rows.map Row.final_amount)).sum)) ∧
    (save_summary t).lookup "total_transactions" = some (some ((t.rows.length : ℚ))) ∧
    (save_summary t).lookup "total_quantity"
      = some (some ((presentValues (t.rows.map Row.quantity)).sum)) ∧
    (save_summary t).lookup "avg_transaction_value"
      = some (some ((presentValues (t.rows.map Row.final_amount)).sum
          / (presentValues (t.rows.map Row.final_amount)).length)) ∧
    (save_summary t).lookup "median_transaction_value"
      = some (specMidpointMedian (presentValues (t.rows.map Row.final_amount))) := by
  have hlen : (t.rows.map Row.final_amount).filterMap cellNum ≠ [] := h
  refine ⟨?_, ?_, ?_, ?_, ?_⟩
  · simp [save_summary, pandasSum, presentValues, List.lookup]
  · simp [save_summary, List.lookup]
  · simp [save_summary, pandasSum, presentValues, List.lookup]
  · have hif : ¬ ((t.rows.map Row.final_amount).filterMap cellNum).length = 0 := by
      simpa [List.length_eq_zero] using hlen
    have hmean : pandasMean (t.rows.map Row.final_amount)
        = some (((t.rows.map Row.final_amount).filterMap cellNum).sum
            / ((t.rows.map Row.final_amount).filterMap cellNum).length) := by
      show (if ((t.rows.map Row.final_amount).filterMap cellNum).length = 0 then none
          else some (((t.rows.map Row.final_amount).filterMap cellNum).sum
            / ((t.rows.map Row.final_amount).filterMap cellNum).length)) = _
      rw [if_neg hif]
    simp [save_summary, List.lookup, presentValues, hmean]
  · simp [save_summary, pandasMedian, specMidpointMedian, sortedAscQ, presentValues, List.lookup]

def tableC1 : Table :=
  { cols := { hasFinal := true, hasQuantity := true },
    rows := [{ final_amount := Cell.num 10, quantity := Cell.num 1 },
             { final_amount := Cell.num 20, quantity := Cell.num 2 },
             { final_amount := Cell.na, quantity := Cell.num 3 }] }

theorem summary_metrics_spec_witness :
    (save_summary tableC1).lookup "avg_transaction_value"
      = some (some ((presentValues (tableC1.rows.map Row.final_amount)).sum
          / (presentValues (tableC1.rows.map Row.final_amount)).length)) ∧
    (save_summary tableC1).lookup "median_transaction_value"
      = some (specMidpointMedian (presentValues (tableC1.rows.map Row.final_amount))) :=
  ⟨(summary_metrics_spec tableC1 (by decide)).2.2.2.1,
   (summary_metrics_spec tableC1 (by decide)).2.2.2.2⟩

theorem cellStr_eq_some {c : Cell} {s : String} : cellStr c = some s ↔ c = Cell.str s := by
  cases c <;> simp [cellStr]

theorem lookup_map_self (f : String → ℚ) (ks : List String) (w : String) :
    (ks.map (fun s => (s, f s))).lookup w = if w ∈ ks then some (f w) else none := by
  induction ks with
  | nil => rfl
  | cons s ks ih =>
    by_cases hw : w = s
    · subst hw
      simp [List.lookup]
    · have hbeq : (w == s) = false := by simp [hw]
      by_cases hm : w ∈ ks <;> simp [List.lookup, hbeq, ih, hw, hm]

theorem mem_groupKeys (key : Row → Cell) (rows : List Row) (w : String) :
    w ∈ groupKeys key rows ↔ ∃ r ∈ rows, key r = Cell.str w := by
  unfold groupKeys
  rw [List.mem_insertionSort, List.mem_dedup, List.mem_filterMap]
  constructor
  · rintro ⟨r, hr, hc⟩
    exact ⟨r, hr, cellStr_eq_some.1 hc⟩
  · rintro ⟨r, hr, hc⟩
    exact ⟨r, hr, cellStr_eq_some.2 hc⟩

/-- C3: the weekday export has exactly 7 rows in the canonical Monday→Sunday
order, whatever weekdays occur in the data; a weekday with no matching rows
appears with the missing marker (not zero), and a weekday with matching rows
appears with its group sum. -/
theorem weekday_pattern_seven_canonical (t : Table) :
    (plot_weekday_pattern t).map Prod.fst = weekdays ∧
    (plot_weekday_pattern t).length = 7 ∧
    (∀ w ∈ weekdays, (¬ ∃ r ∈ t.rows, r.weekday = Cell.str w) →
      (w, (none : Option ℚ)) ∈ plot_weekday_pattern t) ∧
    (∀ w ∈ weekdays, (∃ r ∈ t.rows, r.weekday = Cell.str w) →
      (w, some (groupSumBy Row.weekday w t.rows)) ∈ plot_weekday_pattern t) := by
  refine ⟨?_, ?_, ?_, ?_⟩
  · have hcomp : (Prod.fst ∘ fun w => (w, (groupbySum Row.weekday t.rows).lookup w))
        = fun w : String => w := rfl
    simp [plot_weekday_pattern, List.map_map, hcomp]
  · simp [plot_weekday_pattern, weekdays]
  · intro w hw habs
    refine List.mem_map.2 ⟨w, hw, ?_⟩
    rw [groupbySum, lookup_map_self, if_neg]
    rw [mem_groupKeys]
    exact habs
  · intro w hw hex
    refine List.mem_map.2 ⟨w, hw, ?_⟩
    rw [groupbySum, lookup_map_self, if_pos]
    rw [mem_groupKeys]
    exact hex

def tableC3 : Table :=
  { cols := { hasWeekday := true, hasFinal := true },
    rows := [{ weekday := Cell.str "Monday", final_amount := Cell.num 4 }] }

theorem weekday_pattern_seven_canonical_witness :
    ("Sunday", (none : Option ℚ)) ∈ plot_weekday_pattern tableC3 ∧
    (plot_weekday_pattern tableC3).length = 7 :=
  ⟨(weekday_pattern_seven_canonical tableC3).2.2.1 "Sunday" (by decide) (by decide),
   (weekday_pattern_seven_canonical tableC3).2.1⟩

/-- C5: the exported store×month pivot has at most 12 rows; every exported row
holds one (numeric, hence non-missing) cell per year-month present in the
data; each top store's row is exactly its per-month cells; and a (store,
month) combination with no matching transaction rows holds the fill value 0. -/
theorem heatmap_pivot_filled (t : Table) :
    (plot_store_month_heatmap t).length ≤ 12 ∧
    (∀ p ∈ plot_store_month_heatmap t, p.2.length = (monthsOf t).length) ∧
    (∀ s ∈ topStores t, (s, (monthsOf t).map (pivotCell t s)) ∈ plot_store_month_heatmap t) ∧
    (∀ s m, (∀ r ∈ t.rows, ¬(r.store_name = Cell.str s ∧ r.year_month = Cell.str m)) →
      pivotCell t s m = 0) := by
  refine ⟨?_, ?_, ?_, ?_⟩
  · have h12 : (((sort_values_descending ((storesOf t).map
        (fun s => (s, storeTotal t s)))).take 12).length) ≤ 12 := by
      simp [List.length_take]
    simp only [plot_store_month_heatmap, topStores, List.length_map]
    exact h12
  · intro p hp
    obtain ⟨s, _, rfl⟩ := List.mem_map.1 hp
    simp
  · intro s hs
    exact List.mem_map.2 ⟨s, hs, rfl⟩
  · intro s m h
    have hfil : t.rows.filter
        (fun r => r.store_name == Cell.str s && r.year_month == Cell.str m) = [] := by
      rw [List.filter_eq_nil_iff]
      intro r hr
      have := h r hr
      simp only [Bool.and_eq_true, beq_iff_eq]
      tauto
    simp [pivotCell, hfil, pandasSum]

def tableC5 : Table :=
  { cols := { hasDate := true, hasStore := true, hasFinal := true },
    rows := [{ store_name := Cell.str "A", year_month := Cell.str "2024-01",
               final_amount := Cell.num 3 }] }

theorem heatmap_pivot_filled_witness :
    pivotCell tableC5 "A" "2024-02" = 0 ∧ (plot_store_month_heatmap tableC5).length ≤ 12 :=
  ⟨(heatmap_pivot_filled tableC5).2.2.2 "A" "2024-02" (by decide),
   (heatmap_pivot_filled tableC5).1⟩

theorem lexLe_total : ∀ a b : List Char, lexLe a b = true ∨ lexLe b a = true := by
  intro a
  induction a with
  | nil => intro b; left; rfl
  | cons x xs ih =>
    intro b
    cases b with
    | nil => right; rfl
    | cons y ys =>
      by_cases hlt : x.toNat < y.toNat
      · left
        simp [lexLe, hlt]
      · by_cases heq : x.toNat = y.toNat
        · rcases ih ys with h | h
          · left
            simp [lexLe, hlt, heq, h]
          · right
            simp [lexLe, heq.symm, h]
        · right
          have : y.toNat < x.toNat := by omega
          simp [lexLe, this]

theorem lexLe_trans :
    ∀ a b c : List Char, lexLe a b = true → lexLe b c = true → lexLe a c = true := by
  intro a
  induction a with
  | nil => intro b c _ _; rfl
  | cons x xs ih =>
    intro b c hab hbc
    cases b with
    | nil => simp [lexLe] at hab
    | cons y ys =>
      cases c with
      | nil => simp [lexLe] at hbc
      | cons z zs =>
        simp only [lexLe] at hab hbc ⊢
        by_cases hxy : x.toNat < y.toNat
        · by_cases hyz : y.toNat < z.toNat
          · have hxz : x.toNat < z.toNat := lt_trans hxy hyz
            simp [hxz]
          · by_cases hyz' : y.toNat = z.toNat
            · have hxz : x.toNat < z.toNat := by omega
              simp [hxz]
            · simp [hyz, hyz'] at hbc
        · by_cases hxy' : x.toNat = y.toNat
          · by_cases hyz : y.toNat < z.toNat
            · have hxz : x.toNat < z.toNat := by omega
              simp [hxz]
            · by_cases hyz' : y.toNat = z.toNat
              · have hxz' : x.toNat = z.toNat := by omega
                have hxz : ¬ x.toNat < z.toNat := by omega
                simp only [if_neg hxy, if_pos hxy'] at hab
                simp only [if_neg hyz, if_pos hyz'] at hbc
                simp only [if_neg hxz, if_pos hxz']
                exact ih ys zs hab hbc
              · simp [hyz, hyz'] at hbc
          · simp [hxy, hxy'] at hab

instance : IsTotal String (fun a b => strLe a b = true) :=
  ⟨fun a b => lexLe_total a.data b.data⟩

instance : IsTrans String (fun a b => strLe a b = true) :=
  ⟨fun a b c => lexLe_trans a.data b.data c.data⟩

instance : IsTotal (String × ℚ) pairLE := by
  constructor
  intro a b
  rcases lt_trichotomy a.2 b.2 with h | h | h
  · left; left; exact h
  · rcases lexLe_total a.1.data b.1.data with hs | hs
    · left; right; exact ⟨h, hs⟩
    · right; right; exact ⟨h.symm, hs⟩
  · right; left; exact h

instance : IsTrans (String × ℚ) pairLE := by
  constructor
  rintro a b c (hab | ⟨hab, hab'⟩) (hbc | ⟨hbc, hbc'⟩)
  · left; exact lt_trans hab hbc
  · left; exact hbc ▸ hab
  · left; exact hab ▸ hbc
  · right; exact ⟨hab.trans hbc, lexLe_trans _ _ _ hab' hbc'⟩

/-- C4 (amended): both ranking exports are permutations of the group-by result
that are weakly descending in the summed final amount; among groups with equal
sums the export order is *reversed* relative to the ascending group-by key
order (each later tied entry has a key ≤ the earlier one), because pandas
implements a descending sort as the reverse of a stable ascending one. -/
theorem rankings_descending_ties_reversed (t : Table) :
    (List.Pairwise (fun a b => pairLE b a) (plot_sales_by_store t) ∧
      List.Perm (plot_sales_by_store t) (groupbySum Row.store_name t.rows)) ∧
    (List.Pairwise (fun a b => pairLE b a) (plot_top_products t) ∧
      List.Perm (plot_top_products t) (groupbySum Row.product_name t.rows)) := by
  have key : ∀ l : List (String × ℚ),
      List.Pairwise (fun a b => pairLE b a) (sort_values_descending l) ∧
      List.Perm (sort_values_descending l) l := by
    intro l
    constructor
    · rw [sort_values_descending, List.pairwise_reverse]
      exact List.sorted_insertionSort pairLE l
    · exact (List.reverse_perm _).trans (List.perm_insertionSort pairLE l)
  exact ⟨key _, key _⟩

def tableC4 : Table :=
  { cols := { hasStore := true, hasFinal := true },
    rows := [{ store_name := Cell.str "A", final_amount := Cell.num 10 },
             { store_name := Cell.str "B", final_amount := Cell.num 10 }] }

/-- C4 (counterexample): on a cleaned table with two stores tied at 10, the
group-by order is `A` then `B`, but the export lists `B` before `A` — the tie
is *not* broken by the original group-by key order. -/
theorem rankings_tie_order_counterexample :
    groupbySum Row.store_name (load_and_clean tableC4).rows = [("A", 10), ("B", 10)] ∧
    plot_sales_by_store (load_and_clean tableC4) = [("B", 10), ("A", 10)] := by
  constructor
  · norm_num +decide [groupbySum, groupKeys, groupSumBy, pandasSum, cellStr, cellNum,
      load_and_clean, cleanNumeric, cleanDates, tableC4, toNumericCoerce, strLe, lexLe,
      List.dedup, List.filter, List.filterMap]
  · norm_num +decide [plot_sales_by_store, sort_values_descending, pairLE, groupbySum,
      groupKeys, groupSumBy, pandasSum, cellStr, cellNum, load_and_clean, cleanNumeric,
      cleanDates, tableC4, toNumericCoerce, strLe, lexLe, List.dedup, List.filter,
      List.filterMap]

/-- C7 (amended): the exported monthly table is the group-by result — whose
rows stand in ascending *lexicographic* order of the year-month label — with
the label column replaced by its parsed month start; the code performs no
re-sort by the parsed date. -/
theorem timeseries_label_order (t : Table) :
    plot_timeseries t
      = (groupbySum Row.year_month t.rows).map (fun p => (toDatetimeMonthStart p.1, p.2)) ∧
    List.Pairwise (fun a b => strLe a.1 b.1 = true) (groupbySum Row.year_month t.rows) := by
  refine ⟨rfl, ?_⟩
  rw [groupbySum, List.pairwise_map]
  exact List.sorted_insertionSort (fun a b => strLe a b = true) _

def tableC7 : Table :=
  { cols := { hasYearMonth := true, hasFinal := true },
    rows := [{ year_month := Cell.str "2024-9", final_amount := Cell.num 1 },
             { year_month := Cell.str "2024-10", final_amount := Cell.num 2 }] }

/-- C7 (counterexample): a cleaned table can carry non-padded year-month
labels (the cleaner passes a pre-existing `year_month` column through
untouched when there is no `transaction_date` column). On labels `2024-9` and
`2024-10` the export comes out in string order — October before September —
so it is not ordered chronologically by the parsed month start. -/
theorem timeseries_order_counterexample :
    (load_and_clean tableC7).rows.map Row.year_month
      = [Cell.str "2024-9", Cell.str "2024-10"] ∧
    plot_timeseries (load_and_clean tableC7)
      = [(some ⟨2024, 10, 1⟩, 2), (some ⟨2024, 9, 1⟩, 1)] ∧
    ¬ Chronological (plot_timeseries (load_and_clean tableC7)) := by
  have h2 : plot_timeseries (load_and_clean tableC7)
      = [(some ⟨2024, 10, 1⟩, 2), (some ⟨2024, 9, 1⟩, 1)] := by
    norm_num +decide [plot_timeseries, toDatetimeMonthStart, splitChars, parseNatStr,
      parseNatChars, digitVal, groupbySum, groupKeys, groupSumBy, pandasSum, cellStr,
      cellNum, load_and_clean, cleanNumeric, cleanDates, tableC7, toNumericCoerce,
      strLe, lexLe, List.dedup, List.filter, List.filterMap]
  refine ⟨by decide, h2, ?_⟩
  rw [Chronological, h2]
  intro hch
  rcases List.pairwise_cons.1 hch with ⟨hfa, _⟩
  have h := hfa _ (List.mem_singleton.2 rfl)
  exact absurd h (by decide)

theorem sum_map_zero (ks : List String) : (ks.map (fun _ => (0 : ℚ))).sum = 0 := by
  induction ks with
  | nil => rfl
  | cons s ks ih => simp [ih]

theorem sum_if_mem (v : ℚ) (f : String → ℚ) :
    ∀ ks : List String, ks.Nodup → ∀ k ∈ ks,
      (ks.map (fun s => if k = s then v + f s else f s)).sum = v + (ks.map f).sum := by
  intro ks
  induction ks with
  | nil =>
    intro _ k hk
    simp at hk
  | cons s ks ih =>
    intro hnd k hk
    rcases List.nodup_cons.1 hnd with ⟨hs, hnd'⟩
    rcases List.mem_cons.1 hk with rfl | hk'
    · have hmap : ks.map (fun x => if k = x then v + f x else f x) = ks.map f := by
        apply List.map_congr_left
        intro x hx
        have hne : k ≠ x := fun h => hs (h ▸ hx)
        simp [hne]
      simp [hmap]
      ring
    · have hks : k ≠ s := fun h => hs (h ▸ hk')
      simp [hks, ih hnd' k hk']
      ring

theorem sum_fiberwise (keyf : Row → String) (val : Row → ℚ) :
    ∀ (rows : List Row) (ks : List String), ks.Nodup → (∀ r ∈ rows, keyf r ∈ ks) →
      (ks.map (fun s => ((rows.filter (fun r => keyf r == s)).map val).sum)).sum
        = (rows.map val).sum := by
  intro rows
  induction rows with
  | nil =>
    intro ks _ _
    simp [sum_map_zero]
  | cons r rows ih =>
    intro ks hnd hcov
    have hr : keyf r ∈ ks := hcov r (by simp)
    have hcov' : ∀ x ∈ rows, keyf x ∈ ks := fun x hx => hcov x (by simp [hx])
    have hmap : ks.map (fun s => (((r :: rows).filter (fun x => keyf x == s)).map val).sum)
        = ks.map (fun s =>
            if keyf r = s then val r + ((rows.filter (fun x => keyf x == s)).map val).sum
            else ((rows.filter (fun x => keyf x == s)).map val).sum) := by
      apply List.map_congr_left
      intro s _
      rw [List.filter_cons]
      by_cases h : keyf r = s
      · simp [h]
      · simp [h]
    rw [hmap, sum_if_mem _ _ ks hnd _ hr, ih ks hnd hcov']
    simp

theorem sum_filterMap_cellNum (l : List Cell) :
    (l.filterMap cellNum).sum = (l.map (fun c => (cellNum c).getD 0)).sum := by
  induction l with
  | nil => rfl
  | cons c l ih => cases hc : cellNum c <;> simp [List.filterMap_cons, hc, ih]

theorem cellStr_na : cellStr Cell.na = none := rfl

theorem cellStr_num (q : ℚ) : cellStr (Cell.num q) = none := rfl

theorem cellStr_str (s : String) : cellStr (Cell.str s) = some s := rfl

theorem filterMap_cellStr_filter (key : Row → Cell) (rows : List Row) :
    (rows.filter (fun r => key r != Cell.na)).filterMap (fun r => cellStr (key r))
      = rows.filterMap (fun r => cellStr (key r)) := by
  induction rows with
  | nil => rfl
  | cons r rows ih =>
    cases hk : key r with
    | na => simp [List.filter_cons, List.filterMap_cons, hk, ih, cellStr_na]
    | num q => simp [List.filter_cons, List.filterMap_cons, hk, ih, cellStr_num]
    | str s => simp [List.filter_cons, List.filterMap_cons, hk, ih, cellStr_str]

theorem filter_keyEq_of_filter_ne_na (key : Row → Cell) (s : String) (rows : List Row) :
    (rows.filter (fun r => key r != Cell.na)).filter (fun r => key r == Cell.str s)
      = rows.filter (fun r => key r == Cell.str s) := by
  induction rows with
  | nil => rfl
  | cons r rows ih =>
    cases hk : key r with
    | na =>
      have h1 : (Cell.na != Cell.na) = false := rfl
      have h2 : (Cell.na == Cell.str s) = false := rfl
      simp [List.filter_cons, hk, h1, h2, ih]
    | num q =>
      have h1 : (Cell.num q != Cell.na) = true := rfl
      have h2 : (Cell.num q == Cell.str s) = false := rfl
      simp [List.filter_cons, hk, h1, h2, ih]
    | str a =>
      have h1 : (Cell.str a != Cell.na) = true := rfl
      by_cases has : a = s
      · subst has
        have h2 : (Cell.str a == Cell.str a) = true := by simp
        simp [List.filter_cons, hk, h1, h2, ih]
      · have h2 : (Cell.str a == Cell.str s) = false := by
          simp [has]
        simp [List.filter_cons, hk, h1, h2, ih]

theorem groupbySum_drops_na_keys (key : Row → Cell) (rows : List Row) :
    groupbySum key (rows.filter (fun r => key r != Cell.na)) = groupbySum key rows := by
  have hkeys : groupKeys key (rows.filter (fun r => key r != Cell.na)) = groupKeys key rows := by
    unfold groupKeys
    rw [filterMap_cellStr_filter]
  unfold groupbySum
  rw [hkeys]
  apply List.map_congr_left
  intro s _
  unfold groupSumBy
  rw [filter_keyEq_of_filter_ne_na]

/-- C10 (amended): with a `transaction_date` column present, every cleaned row
carries a *string* year-month label — rows whose date failed to parse carry
the literal `"NaT"` (the period of a missing date stringifies to `"NaT"`) and
a missing weekday. Hence the monthly grouping covers every row, its exported
totals sum to exactly the summary's total sales, while rows with missing
weekday (in particular all parse failures) are dropped from the weekday
grouping. -/
theorem failed_dates_monthly_weekday (t : Table) (hD : t.cols.hasDate = true) :
    (∀ r ∈ (load_and_clean t).rows, ∃ s, r.year_month = Cell.str s) ∧
    ((groupbySum Row.year_month (load_and_clean t).rows).map Prod.snd).sum
      = pandasSum ((load_and_clean t).rows.map Row.final_amount) ∧
    (∀ r ∈ t.rows, parseDate r.transaction_date = none →
      (cleanNumeric t.cols (cleanDates t.cols r)).weekday = Cell.na ∧
      (cleanNumeric t.cols (cleanDates t.cols r)).year_month = Cell.str "NaT") ∧
    groupbySum Row.weekday ((load_and_clean t).rows.filter (fun r => r.weekday != Cell.na))
      = groupbySum Row.weekday (load_and_clean t).rows := by
  have hstr : ∀ r ∈ (load_and_clean t).rows, ∃ s, r.year_month = Cell.str s := by
    intro r hr
    obtain ⟨r0, _, rfl⟩ := List.mem_map.1 hr
    simp only [cleanNumeric]
    simp only [cleanDates, hD, if_pos]
    cases parseDate r0.transaction_date with
    | some dt => exact ⟨fmtYearMonth dt, rfl⟩
    | none => exact ⟨"NaT", rfl⟩
  refine ⟨hstr, ?_, ?_, groupbySum_drops_na_keys _ _⟩
  · set L := (load_and_clean t).rows with hL
    have hcov : ∀ r ∈ L, (fun x => (cellStr x.year_month).getD "") r
        ∈ groupKeys Row.year_month L := by
      intro r hr
      rw [mem_groupKeys]
      obtain ⟨s, hs⟩ := hstr r hr
      exact ⟨r, hr, by simp [hs, cellStr]⟩
    have hnd : (groupKeys Row.year_month L).Nodup := by
      unfold groupKeys
      exact ((List.perm_insertionSort _ _).nodup_iff).2 (List.nodup_dedup _)
    have hfib := sum_fiberwise (fun x => (cellStr x.year_month).getD "")
      (fun x => (cellNum x.final_amount).getD 0) L (groupKeys Row.year_month L) hnd hcov
    have hmapsnd : (groupbySum Row.year_month L).map Prod.snd
        = (groupKeys Row.year_month L).map (fun s => groupSumBy Row.year_month s L) := by
      unfold groupbySum
      rw [List.map_map]
      rfl
    have hgs : ∀ s, groupSumBy Row.year_month s L
        = ((L.filter (fun x => (cellStr x.year_month).getD "" == s)).map
            (fun x => (cellNum x.final_amount).getD 0)).sum := by
      intro s
      unfold groupSumBy pandasSum
      have hfe : L.filter (fun r => r.year_month == Cell.str s)
          = L.filter (fun x => (cellStr x.year_month).getD "" == s) := by
        apply List.filter_congr
        intro x hx
        obtain ⟨a, ha⟩ := hstr x hx
        by_cases has : a = s <;> simp [ha, cellStr, has]
      rw [hfe, sum_filterMap_cellNum, List.map_map]
      rfl
    have hrhs : pandasSum (L.map Row.final_amount)
        = (L.map (fun x => (cellNum x.final_amount).getD 0)).sum := by
      unfold pandasSum
      rw [sum_filterMap_cellNum, List.map_map]
      rfl
    rw [hmapsnd, hrhs]
    rw [List.map_congr_left (fun s _ => hgs s)]
    exact hfib
  · intro r hr hparse
    constructor
    · simp only [cleanNumeric]
      simp only [cleanDates, hD, if_pos, hparse]
    · simp only [cleanNumeric]
      simp only [cleanDates, hD, if_pos, hparse]

def tableC10 : Table :=
  { cols := { hasDate := true, hasFinal := true },
    rows := [{ transaction_date := Cell.str "2024-01-15", final_amount := Cell.num 2 },
             { transaction_date := Cell.str "not a date", final_amount := Cell.num 5 }] }

/-- C10 (counterexample): with one parsable and one unparsable date, the
unparsable row is dropped from the weekday grouping (its weekday is missing)
but *not* from the monthly grouping: it lands in an exported bucket labelled
`"NaT"`, and the exported monthly totals sum to exactly the total sales — not
strictly less. -/
theorem failed_dates_counterexample :
    (load_and_clean tableC10).rows.map Row.year_month
      = [Cell.str "2024-01", Cell.str "NaT"] ∧
    (load_and_clean tableC10).rows.map Row.weekday = [Cell.str "Monday", Cell.na] ∧
    groupbySum Row.year_month (load_and_clean tableC10).rows
      = [("2024-01", 2), ("NaT", 5)] ∧
    ((groupbySum Row.year_month (load_and_clean tableC10).rows).map Prod.snd).sum
      = pandasSum ((load_and_clean tableC10).rows.map Row.final_amount) := by
  have hrows : (load_and_clean tableC10).rows =
      [{ transaction_date := Cell.str "2024-01-15", final_amount := Cell.num 2,
         year_month := Cell.str "2024-01", weekday := Cell.str "Monday" },
       { transaction_date := Cell.na, final_amount := Cell.num 5,
         year_month := Cell.str "NaT", weekday := Cell.na }] := by
    decide
  have hkeys : groupKeys Row.year_month
      [{ transaction_date := Cell.str "2024-01-15", final_amount := Cell.num 2,
         year_month := Cell.str "2024-01", weekday := Cell.str "Monday" },
       { transaction_date := Cell.na, final_amount := Cell.num 5,
         year_month := Cell.str "NaT", weekday := Cell.na }] = ["2024-01", "NaT"] := by
    decide
  have hg : groupbySum Row.year_month (load_and_clean tableC10).rows
      = [("2024-01", 2), ("NaT", 5)] := by
    rw [hrows]
    norm_num +decide [groupbySum, hkeys, groupSumBy, pandasSum, cellNum,
      List.filter, List.filterMap]
  refine ⟨by decide, by decide, hg, ?_⟩
  rw [hg, hrows]
  norm_num [pandasSum, cellNum, List.filterMap]

theorem failed_dates_monthly_weekday_witness :
    (cleanNumeric tableC10.cols (cleanDates tableC10.cols
        { transaction_date := Cell.str "not a date", final_amount := Cell.num 5 })).weekday
      = Cell.na ∧
    (cleanNumeric tableC10.cols (cleanDates tableC10.cols
        { transaction_date := Cell.str "not a date", final_amount := Cell.num 5 })).year_month
      = Cell.str "NaT" :=
  (failed_dates_monthly_weekday tableC10 rfl).2.2.1
    { transaction_date := Cell.str "not a date", final_amount := Cell.num 5 }
    (by decide) (by decide)
